import Mathlib

/-!
# Verification of the `SigningKey` façade (`src/lib.esm/crypto/signing-key.js`)

A shallow embedding of the ethers.js `SigningKey` class.  Byte strings
(JavaScript `Uint8Array` values and `DataHexString`s) are modelled by their
byte content as `List Nat`; the hex codec of the utility layer is a
content-preserving bijection between the two JavaScript representations, so
at the byte level it is the identity.

The secp256k1 curve engine (`@noble/secp256k1`) is an external dependency
that is out of scope per the spec (§1); it is modelled as a structure of
operations (`CurveEngine`, spec §6), and the guarantees the spec assumes of
it (deterministic low-s signing, recovery correctness, point-encoding round
trips, commutative point addition) are stated as named predicates used as
hypotheses of the theorems.  A concrete `testEngine` instance discharges
those hypotheses in the witness theorems.
-/

/-- Fixed-width big-endian byte encoding of a natural number
(`width` bytes, most significant first).  Used to model the fixed-width
zero-padded hex outputs of the utility layer (spec §6). -/
def natToBeBytes : Nat → Nat → List Nat
  | 0, _ => []
  | width + 1, value => natToBeBytes width (value / 256) ++ [value % 256]

/-- Big-endian interpretation of a byte string as a natural number. -/
def fromBeBytes (b : List Nat) : Nat := b.foldl (fun acc x => acc * 256 + x) 0

/-- Modelled from the spec: the hex/byte conversion utility `getBytes` of
`src/lib.esm/utils` (not under `src/`) normalizes a `BytesLike` value to its
byte content; at the byte level it is the identity. -/
def getBytes (value : List Nat) : List Nat := value

/-- Modelled from the spec: `getBytesCopy` returns a fresh copy of the byte
content; at the byte level it is the identity. -/
def getBytesCopy (value : List Nat) : List Nat := value

/-- Modelled from the spec: `hexlify` renders byte content as the canonical
lowercase `0x`-prefixed hex string; the codec is content-preserving, so at
the byte level it is the identity. -/
def hexlify (value : List Nat) : List Nat := value

/-- Modelled from the spec: `dataLength` is the byte length of a
`BytesLike` value. -/
def dataLength (value : List Nat) : Nat := (getBytes value).length

/-- Modelled from the spec: `concat` joins a list of byte strings. -/
def concat (items : List (List Nat)) : List Nat := items.flatten

/-- Modelled from the spec: `toHex(value, width)` renders a numeric value as
a zero-padded fixed-width hex string (spec §6: "fixed-width and zero-padded
where specified (32 bytes for r/s)"); at the byte level, the `width`-byte
big-endian encoding. -/
def toHex (value : Nat) (width : Nat) : List Nat := natToBeBytes width value

/-- The secp256k1 group order, from the comment on line 5 of the source
(`const N = BigInt("0xfffffffffffffffffffffffffffffffebaaedce6af48a03bbfd25e8cd0364141")`). -/
def curveOrder : Nat :=
  0xfffffffffffffffffffffffffffffffebaaedce6af48a03bbfd25e8cd0364141

/-- Modelled from the spec (§3): a `CurvePoint` is the decoded `(x, y)`
coordinate pair of a point on secp256k1. -/
@[ext] structure CurvePoint where
  x : Nat
  y : Nat
deriving DecidableEq, Repr

/-- Modelled from the spec (§3): the external `Signature` value type
(`src/lib.esm/crypto/signature.js`, not under `src/`): 32-byte `r`,
32-byte `s`, and a recovery indicator `v` in the legacy byte convention. -/
structure Signature where
  r : List Nat
  s : List Nat
  v : Nat
deriving DecidableEq, Repr

/-- Modelled from the spec (§3): the two legacy-compatible encodings of the
recovery indicator are a 2-bit parity value (0/1) and a legacy byte value
(27/28, offset from parity by 0x1b); `yParity` recovers the parity from the
legacy byte. -/
def Signature.yParity (sig : Signature) : Nat := if sig.v = 27 then 0 else 1

/-- Modelled from the spec: `Signature.from` applied to an existing
signature value returns an equivalent signature unchanged. -/
def Signature.from' (sig : Signature) : Signature := sig

/-- The value reported with an `InvalidArgument` error: a plain string (the
redacted placeholder), byte content, or the offending signature. -/
inductive ArgValue where
  | str : String → ArgValue
  | bytes : List Nat → ArgValue
  | sig : Signature → ArgValue
deriving DecidableEq, Repr

/-- The error model of the façade: `invalidArgument` carries the message,
the parameter name and the reported value (the payload of ethers'
`assertArgument`); `engine` is a failure propagated unchanged from the
curve engine (spec §4.2: decode failures are "surfaced by CurveEngine and
propagated unchanged (kind: invalid-key-encoding)"). -/
inductive EthersError where
  | invalidArgument : String → String → ArgValue → EthersError
  | engine : String → EthersError
deriving DecidableEq, Repr

/-- Modelled from the spec: `assertArgument(check, message, name, value)`
of the utility layer signals an `InvalidArgument` error carrying the
message, parameter name and reported value when `check` fails. -/
def assertArgument (check : Bool) (message argName : String) (value : ArgValue) :
    Except EthersError Unit :=
  if check then .ok () else .error (.invalidArgument message argName value)

/-- Modelled from the spec (§6): the operations of the external secp256k1
curve engine (`@noble/secp256k1`, out of scope per §1).
* `scalarPoint` — scalar-to-point multiplication `scalar * G`;
* `toRawBytes` — point encoding per the compressed flag
  (`Point.toRawBytes`);
* `fromHex` — point decoding (`Point.fromHex`), `none` on a decode
  failure;
* `sharedPoint` — the ECDH shared point of a private scalar and an encoded
  public key;
* `signSync` — deterministic (RFC6979-style) low-s ECDSA over digest and
  private scalar, returning the DER-encoded signature and the recovery
  bit;
* `fromDER` — parse a DER signature into the integer pair `(r, s)`
  (`Signature.fromHex`);
* `toDER` — re-encode an integer pair as DER
  (`Signature.fromCompact(...).toDERRawBytes()`);
* `recoverPoint` — curve-level public-key recovery
  (`recoverPublicKey`), returning the 65-byte uncompressed key, or `none`
  when recovery yields no valid point;
* `addPoint` — elliptic-curve point addition. -/
structure CurveEngine where
  scalarPoint : List Nat → CurvePoint
  toRawBytes : CurvePoint → Bool → List Nat
  fromHex : List Nat → Option CurvePoint
  sharedPoint : List Nat → List Nat → CurvePoint
  signSync : List Nat → List Nat → List Nat × Bool
  fromDER : List Nat → Nat × Nat
  toDER : Nat → Nat → List Nat
  recoverPoint : List Nat → List Nat → Nat → Option (List Nat)
  addPoint : CurvePoint → CurvePoint → CurvePoint

/-- Modelled from the spec (§6): `getPublicKey(scalar, compressed)` is
scalar-to-point multiplication followed by point encoding per the
compressed flag. -/
def CurveEngine.getPublicKey (e : CurveEngine) (scalar : List Nat)
    (compressed : Bool) : List Nat :=
  e.toRawBytes (e.scalarPoint scalar) compressed

/-- Modelled from the spec (§4.4): `getSharedSecret` returns the raw
shared-secret bytes — the x-coordinate of the ECDH shared point, per
standard ECDH convention — as a 32-byte big-endian value. -/
def CurveEngine.getSharedSecret (e : CurveEngine) (scalar pubKey : List Nat) :
    List Nat :=
  natToBeBytes 32 (e.sharedPoint scalar pubKey).x

/-- Modelled from the spec (§4.5): `Signature.fromCompact` splits a 64-byte
compact signature into the big-endian integers `r` (first 32 bytes) and `s`
(last 32 bytes). -/
def sigFromCompact (bytes : List Nat) : Nat × Nat :=
  (fromBeBytes (bytes.take 32), fromBeBytes (bytes.drop 32))

/-- The `SigningKey` data model (spec §3): the single stored attribute is
the private key (`#privateKey`), held in its normalized (hexlified)
representation. -/
structure SigningKey where
  privateKey : List Nat
deriving DecidableEq, Repr

/-- The `SigningKey` constructor:
`assertArgument(dataLength(privateKey) === 32, "invalid private key",
"privateKey", "[REDACTED]"); this.#privateKey = hexlify(privateKey);`. -/
def SigningKey.new (privateKey : List Nat) : Except EthersError SigningKey := do
  let _ ← assertArgument (dataLength privateKey == 32) "invalid private key"
    "privateKey" (.str "[REDACTED]")
  pure ⟨hexlify privateKey⟩

/-- `SigningKey.computePublicKey(key, compressed)`: a 32-byte key is a
private key (`getPublicKey`); a 64-byte key is a raw point, prefixed with
`0x04`; otherwise decode via `Point.fromHex` and re-encode per the
compressed flag. -/
def SigningKey.computePublicKey (e : CurveEngine) (key : List Nat)
    (compressed : Bool) : Except EthersError (List Nat) :=
  let bytes := getBytes key
  if bytes.length = 32 then
    let pubKey := e.getPublicKey bytes compressed
    .ok (hexlify pubKey)
  else
    let bytes := if bytes.length = 64 then 0x04 :: bytes else bytes
    match e.fromHex bytes with
    | some point => .ok (hexlify (e.toRawBytes point compressed))
    | none => .error (.engine "invalid-key-encoding")

/-- `SigningKey.sign(digest)`: assert the digest length, run the engine's
deterministic recoverable signing, parse the DER result, and package `r`
and `s` zero-padded to 32 bytes with the legacy recovery byte
`recid ? 0x1c : 0x1b`. -/
def SigningKey.sign (e : CurveEngine) (key : SigningKey) (digest : List Nat) :
    Except EthersError Signature := do
  let _ ← assertArgument (dataLength digest == 32) "invalid digest length"
    "digest" (.bytes digest)
  let sigRes := e.signSync (getBytesCopy digest) (getBytesCopy key.privateKey)
  let sig := e.fromDER sigRes.1
  pure { r := toHex sig.1 32, s := toHex sig.2 32,
         v := if sigRes.2 then 0x1c else 0x1b }

/-- `SigningKey.computeShardSecret(other)` (the source's spelling):
normalize `other` to a public key via `computePublicKey`, then return the
engine's raw shared secret. -/
def SigningKey.computeShardSecret (e : CurveEngine) (key : SigningKey)
    (other : List Nat) : Except EthersError (List Nat) := do
  let pubKey ← SigningKey.computePublicKey e other false
  pure (hexlify (e.getSharedSecret (getBytesCopy key.privateKey) pubKey))

/-- `SigningKey.recoverPublicKey(digest, signature)`: assert the digest
length, rebuild the DER representation from `r‖s` via
`Signature.fromCompact(...).toDERRawBytes()`, invoke curve-level recovery
with the parity bit, and signal an `InvalidArgument` error naming
`signature` when no valid point results. -/
def SigningKey.recoverPublicKey (e : CurveEngine) (digest : List Nat)
    (signature : Signature) : Except EthersError (List Nat) := do
  let _ ← assertArgument (dataLength digest == 32) "invalid digest length"
    "digest" (.bytes digest)
  let sig := Signature.from' signature
  let compact := sigFromCompact (getBytesCopy (concat [sig.r, sig.s]))
  let der := e.toDER compact.1 compact.2
  match e.recoverPoint (getBytesCopy digest) der sig.yParity with
  | some pubKey => pure (hexlify pubKey)
  | none => .error (.invalidArgument "invalid signautre for digest"
      "signature" (.sig signature))

/-- `SigningKey.addPoints(p0, p1, compressed)`: normalize both inputs to
points (via `computePublicKey` then `Point.fromHex`), add them on the
curve, re-encode per the compressed flag. -/
def SigningKey.addPoints (e : CurveEngine) (p0 p1 : List Nat)
    (compressed : Bool) : Except EthersError (List Nat) := do
  let b0 ← SigningKey.computePublicKey e p0 false
  let pub0 ← match e.fromHex b0 with
    | some point => Except.ok point
    | none => Except.error (.engine "invalid-key-encoding")
  let b1 ← SigningKey.computePublicKey e p1 false
  let pub1 ← match e.fromHex b1 with
    | some point => Except.ok point
    | none => Except.error (.engine "invalid-key-encoding")
  pure (hexlify (e.toRawBytes (e.addPoint pub0 pub1) compressed))

/-! ## Engine guarantees assumed by the spec (§1, §6) -/

/-- Modelled from the spec (§6): the engine's DER codec round-trips the
signatures the engine itself produces. -/
def CurveEngine.DerRoundTrip (e : CurveEngine) : Prop :=
  ∀ d k, d.length = 32 → k.length = 32 →
    e.toDER (e.fromDER (e.signSync d k).1).1 (e.fromDER (e.signSync d k).1).2 =
      (e.signSync d k).1

/-- Modelled from the spec (§6): `r` and `s` of a produced signature fit in
32 bytes. -/
def CurveEngine.SignBounded (e : CurveEngine) : Prop :=
  ∀ d k, d.length = 32 → k.length = 32 →
    (e.fromDER (e.signSync d k).1).1 < 256 ^ 32 ∧
      (e.fromDER (e.signSync d k).1).2 < 256 ^ 32

/-- Modelled from the spec (§6, §8): curve-level recovery applied to a
signature the engine produced returns the uncompressed public key of the
signing scalar. -/
def CurveEngine.SignRecoverCorrect (e : CurveEngine) : Prop :=
  ∀ d k, d.length = 32 → k.length = 32 →
    e.recoverPoint d (e.signSync d k).1
        (if (e.signSync d k).2 then 1 else 0) =
      some (e.getPublicKey k false)

/-- Modelled from the spec (§4.3, §6): produced signatures are canonical
low-s: `s ≤ curveOrder / 2`. -/
def CurveEngine.LowS (e : CurveEngine) : Prop :=
  ∀ d k, d.length = 32 → k.length = 32 →
    (e.fromDER (e.signSync d k).1).2 ≤ curveOrder / 2

/-- Modelled from the spec (§6, §8): elliptic-curve point addition is
commutative. -/
def CurveEngine.AddComm (e : CurveEngine) : Prop :=
  ∀ p q, e.addPoint p q = e.addPoint q p

/-- Modelled from the spec (§4.2, §6): decoding inverts encoding on points
derived from a 32-byte private scalar, for both flags. -/
def CurveEngine.DecodesDerived (e : CurveEngine) : Prop :=
  ∀ k c, k.length = 32 →
    e.fromHex (e.toRawBytes (e.scalarPoint k) c) = some (e.scalarPoint k)

/-- Modelled from the spec (§3): the uncompressed encoding of a derived
point is the prefix byte `0x04` followed by the 64-byte `x‖y` pair. -/
def CurveEngine.UncompressedShape (e : CurveEngine) : Prop :=
  ∀ k, k.length = 32 →
    ∃ rest, e.toRawBytes (e.scalarPoint k) false = 0x04 :: rest ∧
      rest.length = 64

/-- Modelled from the spec (§3): the compressed encoding of a derived point
is 33 bytes long. -/
def CurveEngine.CompressedLen (e : CurveEngine) : Prop :=
  ∀ k, k.length = 32 → (e.toRawBytes (e.scalarPoint k) true).length = 33

/-! ## Basic byte-encoding lemmas -/

theorem natToBeBytes_length (w v : Nat) : (natToBeBytes w v).length = w := by
  induction w generalizing v with
  | zero => rfl
  | succ w ih => simp [natToBeBytes, ih]

theorem fromBeBytes_append_singleton (xs : List Nat) (b : Nat) :
    fromBeBytes (xs ++ [b]) = fromBeBytes xs * 256 + b := by
  simp [fromBeBytes, List.foldl_append]

theorem fromBeBytes_natToBeBytes (w v : Nat) :
    fromBeBytes (natToBeBytes w v) = v % 256 ^ w := by
  induction w generalizing v with
  | zero => simp [natToBeBytes, fromBeBytes, Nat.mod_one]
  | succ w ih =>
      rw [natToBeBytes, fromBeBytes_append_singleton, ih]
      rw [pow_succ, mul_comm (256 ^ w) 256, Nat.mod_mul]
      omega

theorem fromBeBytes_natToBeBytes_of_lt {w v : Nat} (h : v < 256 ^ w) :
    fromBeBytes (natToBeBytes w v) = v := by
  rw [fromBeBytes_natToBeBytes, Nat.mod_eq_of_lt h]

/-! ## A concrete curve engine for witness instantiation

A small executable engine whose "curve" is the set of pairs `(x, x + 1)`;
it satisfies every guarantee stated above and lets the witness theorems
evaluate the façade on concrete inputs. -/

/-- The fixed point used by the concrete test engine. -/
def tPoint : CurvePoint := ⟨1, 2⟩

/-- Point encoding of the test engine: `0x02 ‖ x` (33 bytes) when
compressed, `0x04 ‖ x ‖ y` (65 bytes) otherwise. -/
def tEncode (p : CurvePoint) (compressed : Bool) : List Nat :=
  if compressed then 0x02 :: natToBeBytes 32 p.x
  else 0x04 :: (natToBeBytes 32 p.x ++ natToBeBytes 32 p.y)

/-- Point decoding of the test engine; compressed points decompress with
`y = x + 1`. -/
def tDecode (b : List Nat) : Option CurvePoint :=
  if b.length = 65 ∧ b.head? = some 0x04 then
    some ⟨fromBeBytes ((b.drop 1).take 32), fromBeBytes (b.drop 33)⟩
  else if b.length = 33 ∧ b.head? = some 0x02 then
    some ⟨fromBeBytes (b.drop 1), fromBeBytes (b.drop 1) + 1⟩
  else none

/-- The concrete test engine. -/
def testEngine : CurveEngine where
  scalarPoint := fun _ => tPoint
  toRawBytes := tEncode
  fromHex := tDecode
  sharedPoint := fun _ _ => ⟨5, 6⟩
  signSync := fun _ _ => (natToBeBytes 32 1 ++ natToBeBytes 32 1, false)
  fromDER := fun b => (fromBeBytes (b.take 32), fromBeBytes (b.drop 32))
  toDER := fun r s => natToBeBytes 32 r ++ natToBeBytes 32 s
  recoverPoint := fun _ _ parity =>
    if parity = 0 then some (tEncode tPoint false) else none
  addPoint := fun p q => ⟨p.x + q.x, p.y + q.y⟩

theorem testEngine_derRoundTrip : testEngine.DerRoundTrip := by
  intro d k _ _; simp only [testEngine]; decide

theorem testEngine_signBounded : testEngine.SignBounded := by
  intro d k _ _; simp only [testEngine]; decide

theorem testEngine_signRecoverCorrect : testEngine.SignRecoverCorrect := by
  intro d k _ _; simp only [CurveEngine.getPublicKey, testEngine]; rfl

theorem testEngine_lowS : testEngine.LowS := by
  intro d k _ _; simp only [testEngine]; decide

theorem testEngine_addComm : testEngine.AddComm := by
  intro p q
  ext <;> simp [testEngine] <;> omega

theorem testEngine_decodesDerived : testEngine.DecodesDerived := by
  intro k c _; cases c <;> (simp only [testEngine]; decide)

theorem testEngine_uncompressedShape : testEngine.UncompressedShape := by
  intro k _
  simp only [testEngine]
  exact ⟨natToBeBytes 32 1 ++ natToBeBytes 32 2, by decide, by decide⟩

theorem testEngine_compressedLen : testEngine.CompressedLen := by
  intro k _; simp only [testEngine]; decide

/-! ## Claims -/

/-- **C7**: For every input whose decoded length is not 32 bytes,
`SigningKey` construction signals an `InvalidArgument` error carrying the
parameter name `privateKey` and the redacted placeholder in place of the
key material; for every 32-byte input, construction succeeds and stores
the key. -/
theorem signingKey_construction_validates_length (privateKey : List Nat) :
    (privateKey.length ≠ 32 →
      SigningKey.new privateKey =
        .error (.invalidArgument "invalid private key" "privateKey"
          (.str "[REDACTED]"))) ∧
    (privateKey.length = 32 →
      SigningKey.new privateKey = .ok ⟨hexlify privateKey⟩) := by
  constructor
  · intro h
    simp [SigningKey.new, assertArgument, dataLength, getBytes, h]
  · intro h
    simp [SigningKey.new, assertArgument, dataLength, getBytes, h, hexlify]

/-- Witness for C7: a 31-byte key is rejected with the redacted
`InvalidArgument` payload and a 32-byte key is accepted and stored. -/
theorem signingKey_construction_validates_length_witness :
    SigningKey.new (List.replicate 31 0) =
      .error (.invalidArgument "invalid private key" "privateKey"
        (.str "[REDACTED]")) ∧
    SigningKey.new (List.replicate 32 0) =
      .ok ⟨hexlify (List.replicate 32 0)⟩ :=
  ⟨(signingKey_construction_validates_length (List.replicate 31 0)).1
      (by decide),
   (signingKey_construction_validates_length (List.replicate 32 0)).2
      (by decide)⟩

/-- **C8**: For every digest whose decoded length is not 32 bytes, `sign`
signals an `InvalidArgument` error naming `digest`, and does so before
invoking any curve operation: the result is independent of the curve
engine and of the signing key, so no signature is produced for a 31-byte
or 33-byte digest. -/
theorem sign_rejects_bad_digest_length (e e' : CurveEngine)
    (key key' : SigningKey) (digest : List Nat) (hd : digest.length ≠ 32) :
    SigningKey.sign e key digest =
      .error (.invalidArgument "invalid digest length" "digest"
        (.bytes digest)) ∧
    SigningKey.sign e key digest = SigningKey.sign e' key' digest := by
  have h : ∀ (e0 : CurveEngine) (k0 : SigningKey),
      SigningKey.sign e0 k0 digest =
        .error (.invalidArgument "invalid digest length" "digest"
          (.bytes digest)) := by
    intro e0 k0
    simp [SigningKey.sign, assertArgument, dataLength, getBytes, hd]
  exact ⟨h e key, by rw [h e key, h e' key']⟩

/-- Witness for C8: signing a 31-byte digest fails with the
argument-validation error, identically under two engine/key
instantiations. -/
theorem sign_rejects_bad_digest_length_witness :
    SigningKey.sign testEngine ⟨List.replicate 32 0⟩ (List.replicate 31 0) =
      .error (.invalidArgument "invalid digest length" "digest"
        (.bytes (List.replicate 31 0))) ∧
    SigningKey.sign testEngine ⟨List.replicate 32 0⟩ (List.replicate 31 0) =
      SigningKey.sign testEngine ⟨List.replicate 32 1⟩
        (List.replicate 31 0) :=
  sign_rejects_bad_digest_length testEngine testEngine
    ⟨List.replicate 32 0⟩ ⟨List.replicate 32 1⟩ (List.replicate 31 0)
    (by decide)

/-- **C2**: Every signature produced by `sign` carries the recovery
indicator in the legacy byte convention: `v = 27` exactly when the
engine's recovery bit is 0 and `v = 28` exactly when it is 1; `v` is never
a bare parity bit 0 or 1. -/
theorem sign_legacy_v (e : CurveEngine) (key : SigningKey)
    (digest : List Nat) (sig : Signature)
    (h : SigningKey.sign e key digest = .ok sig) :
    ((e.signSync digest key.privateKey).2 = false → sig.v = 27) ∧
    ((e.signSync digest key.privateKey).2 = true → sig.v = 28) ∧
    sig.v ≠ 0 ∧ sig.v ≠ 1 := by
  by_cases hd : digest.length = 32
  · simp [SigningKey.sign, assertArgument, dataLength, getBytes,
      getBytesCopy, hd] at h
    rcases hrec : (e.signSync digest key.privateKey).2 with _ | _ <;>
      simp [hrec] at h <;> simp [← h]
  · simp [SigningKey.sign, assertArgument, dataLength, getBytes, hd] at h

/-- Witness for C2: a concrete signature from the test engine (recovery
bit 0) carries `v = 27` and not a bare parity bit. -/
theorem sign_legacy_v_witness :
    ((testEngine.signSync (List.replicate 32 0)
        (List.replicate 32 0)).2 = false →
      (Signature.mk (natToBeBytes 32 1) (natToBeBytes 32 1) 27).v = 27) ∧
    ((testEngine.signSync (List.replicate 32 0)
        (List.replicate 32 0)).2 = true →
      (Signature.mk (natToBeBytes 32 1) (natToBeBytes 32 1) 27).v = 28) ∧
    (Signature.mk (natToBeBytes 32 1) (natToBeBytes 32 1) 27).v ≠ 0 ∧
    (Signature.mk (natToBeBytes 32 1) (natToBeBytes 32 1) 27).v ≠ 1 :=
  sign_legacy_v testEngine ⟨List.replicate 32 0⟩ (List.replicate 32 0)
    (Signature.mk (natToBeBytes 32 1) (natToBeBytes 32 1) 27) rfl

/-- **C3**: Every signature produced by `sign` is canonical low-s: its `s`
component read as a big-endian integer satisfies `s ≤ curveOrder / 2`
(given the engine's low-s guarantee, spec §4.3). -/
theorem sign_low_s (e : CurveEngine) (hls : e.LowS)
    (key : SigningKey) (hk : key.privateKey.length = 32)
    (digest : List Nat) (sig : Signature)
    (h : SigningKey.sign e key digest = .ok sig) :
    fromBeBytes sig.s ≤ curveOrder / 2 := by
  by_cases hd : digest.length = 32
  · simp [SigningKey.sign, assertArgument, dataLength, getBytes,
      getBytesCopy, hd] at h
    have hs := hls digest key.privateKey hd hk
    have hlt : (e.fromDER (e.signSync digest key.privateKey).1).2 < 256 ^ 32 := by
      have hbig : curveOrder / 2 < 256 ^ 32 := by decide
      omega
    rw [← h]
    simpa [toHex, fromBeBytes_natToBeBytes_of_lt hlt] using hs
  · simp [SigningKey.sign, assertArgument, dataLength, getBytes, hd] at h

/-- Witness for C3: the test engine's concrete signature satisfies the
low-s bound. -/
theorem sign_low_s_witness :
    fromBeBytes
        (Signature.mk (natToBeBytes 32 1) (natToBeBytes 32 1) 27).s ≤
      curveOrder / 2 :=
  sign_low_s testEngine testEngine_lowS ⟨List.replicate 32 0⟩ (by decide)
    (List.replicate 32 0)
    (Signature.mk (natToBeBytes 32 1) (natToBeBytes 32 1) 27) rfl

/-- **C4**: `computeShardSecret` normalizes the other key to a public key
via `computePublicKey` and returns the raw shared-secret bytes — the
x-coordinate of the ECDH shared point — with no additional key-derivation
step. -/
theorem computeShardSecret_raw_x (e : CurveEngine) (key : SigningKey)
    (other out : List Nat)
    (h : SigningKey.computeShardSecret e key other = .ok out) :
    ∃ pubKey, SigningKey.computePublicKey e other false = .ok pubKey ∧
      out = natToBeBytes 32 (e.sharedPoint key.privateKey pubKey).x := by
  cases hc : SigningKey.computePublicKey e other false with
  | ok pubKey =>
      refine ⟨pubKey, rfl, ?_⟩
      simp [SigningKey.computeShardSecret, hc, CurveEngine.getSharedSecret,
        hexlify, getBytesCopy] at h
      exact h.symm
  | error err =>
      simp [SigningKey.computeShardSecret, hc] at h

/-- Witness for C4: on the test engine the shared secret is the 32-byte
big-endian x-coordinate of the shared point. -/
theorem computeShardSecret_raw_x_witness :
    ∃ pubKey,
      SigningKey.computePublicKey testEngine (List.replicate 32 7) false =
        .ok pubKey ∧
      natToBeBytes 32 5 =
        natToBeBytes 32
          ((testEngine.sharedPoint
              (List.replicate 32 0) pubKey).x) :=
  computeShardSecret_raw_x testEngine ⟨List.replicate 32 0⟩
    (List.replicate 32 7) (natToBeBytes 32 5) rfl

/-- **C6**: When curve-level recovery yields no valid point,
`recoverPublicKey` signals an `InvalidArgument` error naming the
`signature` parameter; and whenever it returns a key, that key is exactly
the point the engine recovered — never a null or fabricated value. -/
theorem recoverPublicKey_failure_invalid_signature (e : CurveEngine)
    (digest : List Nat) (hd : digest.length = 32) (signature : Signature) :
    (e.recoverPoint digest
        (e.toDER (fromBeBytes ((signature.r ++ signature.s).take 32))
          (fromBeBytes ((signature.r ++ signature.s).drop 32)))
        signature.yParity = none →
      SigningKey.recoverPublicKey e digest signature =
        .error (.invalidArgument "invalid signautre for digest" "signature"
          (.sig signature))) ∧
    (∀ pubKey,
      SigningKey.recoverPublicKey e digest signature = .ok pubKey →
      e.recoverPoint digest
        (e.toDER (fromBeBytes ((signature.r ++ signature.s).take 32))
          (fromBeBytes ((signature.r ++ signature.s).drop 32)))
        signature.yParity = some pubKey) := by
  have hchar : SigningKey.recoverPublicKey e digest signature =
      (match e.recoverPoint digest
          (e.toDER (fromBeBytes ((signature.r ++ signature.s).take 32))
            (fromBeBytes ((signature.r ++ signature.s).drop 32)))
          signature.yParity with
       | some pubKey => .ok (hexlify pubKey)
       | none => .error (.invalidArgument "invalid signautre for digest"
           "signature" (.sig signature))) := by
    simp [SigningKey.recoverPublicKey, assertArgument, dataLength, getBytes,
      getBytesCopy, hd, Signature.from', sigFromCompact, concat]
    rfl
  constructor
  · intro hn
    rw [hchar, hn]
  · intro pubKey hpk
    rw [hchar] at hpk
    cases hrec : e.recoverPoint digest
        (e.toDER (fromBeBytes ((signature.r ++ signature.s).take 32))
          (fromBeBytes ((signature.r ++ signature.s).drop 32)))
        signature.yParity with
    | some q => rw [hrec] at hpk; simpa [hexlify] using hpk
    | none => rw [hrec] at hpk; exact absurd hpk (by simp)

/-- Witness for C6: on the test engine, a signature with `v = 28`
(parity 1) admits no recovered point and `recoverPublicKey` reports the
invalid-signature error naming `signature`. -/
theorem recoverPublicKey_failure_invalid_signature_witness :
    SigningKey.recoverPublicKey testEngine (List.replicate 32 0)
        (Signature.mk (natToBeBytes 32 1) (natToBeBytes 32 1) 28) =
      .error (.invalidArgument "invalid signautre for digest" "signature"
        (.sig (Signature.mk (natToBeBytes 32 1) (natToBeBytes 32 1) 28))) :=
  (recoverPublicKey_failure_invalid_signature testEngine
      (List.replicate 32 0) (by decide)
      (Signature.mk (natToBeBytes 32 1) (natToBeBytes 32 1) 28)).1 rfl

/-- **C9**: An input of decoded length exactly 64 bytes is treated by
`computePublicKey` as a raw point `x‖y`: the byte `0x04` is prepended and
the resulting 65-byte uncompressed encoding is decoded and re-encoded per
the compressed flag; a decode failure propagates as the engine's
invalid-key-encoding failure. -/
theorem computePublicKey_raw64 (e : CurveEngine) (key : List Nat)
    (hk : key.length = 64) (compressed : Bool) :
    (∀ point, e.fromHex (0x04 :: key) = some point →
      SigningKey.computePublicKey e key compressed =
        .ok (hexlify (e.toRawBytes point compressed))) ∧
    (e.fromHex (0x04 :: key) = none →
      SigningKey.computePublicKey e key compressed =
        .error (.engine "invalid-key-encoding")) := by
  have h32 : ¬ key.length = 32 := by omega
  constructor
  · intro point hp
    simp [SigningKey.computePublicKey, getBytes, hk, h32, hp]
  · intro hp
    simp [SigningKey.computePublicKey, getBytes, hk, h32, hp]

/-- Witness for C9: a concrete 64-byte raw key is decoded by prepending
`0x04` and re-encoded. -/
theorem computePublicKey_raw64_witness :
    SigningKey.computePublicKey testEngine
        (natToBeBytes 32 1 ++ natToBeBytes 32 2) false =
      .ok (hexlify (testEngine.toRawBytes tPoint false)) :=
  (computePublicKey_raw64 testEngine (natToBeBytes 32 1 ++ natToBeBytes 32 2)
      (by decide) false).1 tPoint (by decide)

theorem exceptOkBind {ε α β : Type} (a : α) (f : α → Except ε β) :
    (Except.ok (ε := ε) a >>= f) = f a := rfl

theorem yParity_legacy (r s : List Nat) (b : Bool) :
    (Signature.mk r s (if b then 28 else 27)).yParity = if b then 1 else 0 := by
  cases b <;> simp [Signature.yParity]

/-- The curve point a `computePublicKey` result decodes to (`none` for a
failed computation): used to compare public-key encodings up to the point
they denote. -/
def decodeResult (e : CurveEngine) (r : Except EthersError (List Nat)) :
    Option CurvePoint :=
  match r with
  | .ok b => e.fromHex b
  | .error _ => none

/-- **C1**: For every `SigningKey` built from a 32-byte private key and
every 32-byte digest, `recoverPublicKey(digest, sign(digest))` returns the
same uncompressed public key as `computePublicKey(privateKey)` (given the
engine's recovery guarantee, spec §8). -/
theorem recover_sign_roundtrip (e : CurveEngine)
    (hrt : e.DerRoundTrip) (hb : e.SignBounded) (hrc : e.SignRecoverCorrect)
    (privKey : List Nat) (hk : privKey.length = 32)
    (key : SigningKey) (hnew : SigningKey.new privKey = .ok key)
    (digest : List Nat) (hd : digest.length = 32)
    (sig : Signature) (hsig : SigningKey.sign e key digest = .ok sig) :
    SigningKey.recoverPublicKey e digest sig =
      SigningKey.computePublicKey e privKey false := by
  have hkey : key = ⟨privKey⟩ := by
    simp [SigningKey.new, assertArgument, dataLength, getBytes, hk,
      hexlify] at hnew
    exact hnew.symm
  subst hkey
  simp [SigningKey.sign, assertArgument, dataLength, getBytes,
    getBytesCopy, hd] at hsig
  subst hsig
  have hbb := hb digest privKey hd hk
  have hrt' := hrt digest privKey hd hk
  have hrc' := hrc digest privKey hd hk
  have htake :
      (natToBeBytes 32 (e.fromDER (e.signSync digest privKey).1).1 ++
        natToBeBytes 32 (e.fromDER (e.signSync digest privKey).1).2).take 32 =
        natToBeBytes 32 (e.fromDER (e.signSync digest privKey).1).1 :=
    List.take_left' (natToBeBytes_length 32 _)
  have hdrop :
      (natToBeBytes 32 (e.fromDER (e.signSync digest privKey).1).1 ++
        natToBeBytes 32 (e.fromDER (e.signSync digest privKey).1).2).drop 32 =
        natToBeBytes 32 (e.fromDER (e.signSync digest privKey).1).2 :=
    List.drop_left' (natToBeBytes_length 32 _)
  simp [SigningKey.recoverPublicKey, SigningKey.computePublicKey,
    assertArgument, dataLength, getBytes, getBytesCopy, hd, hk,
    Signature.from', sigFromCompact, concat, toHex, yParity_legacy,
    hexlify, htake, hdrop, exceptOkBind,
    fromBeBytes_natToBeBytes_of_lt hbb.1,
    fromBeBytes_natToBeBytes_of_lt hbb.2, hrt', hrc']

/-- Witness for C1: a concrete sign-then-recover round trip on the test
engine returns the derived public key. -/
theorem recover_sign_roundtrip_witness :
    SigningKey.recoverPublicKey testEngine (List.replicate 32 0)
        (Signature.mk (natToBeBytes 32 1) (natToBeBytes 32 1) 27) =
      SigningKey.computePublicKey testEngine (List.replicate 32 0) false :=
  recover_sign_roundtrip testEngine testEngine_derRoundTrip
    testEngine_signBounded testEngine_signRecoverCorrect
    (List.replicate 32 0) (by decide) ⟨List.replicate 32 0⟩ rfl
    (List.replicate 32 0) (by decide)
    (Signature.mk (natToBeBytes 32 1) (natToBeBytes 32 1) 27) rfl

/-- **C5**: `computePublicKey` is a point-preserving normalizer: for a
valid 32-byte private key, feeding any encoding of its derived public key
(uncompressed 65-byte, compressed 33-byte, or raw 64-byte) back into
`computePublicKey`, with either compressed flag, decodes to the same curve
point as `computePublicKey` applied to the private key itself. -/
theorem computePublicKey_normalizes (e : CurveEngine)
    (hdd : e.DecodesDerived) (hus : e.UncompressedShape)
    (hcl : e.CompressedLen) (k : List Nat) (hk : k.length = 32) :
    ∀ c : Bool,
      decodeResult e (SigningKey.computePublicKey e k c) =
          some (e.scalarPoint k) ∧
      decodeResult e
          (SigningKey.computePublicKey e (e.getPublicKey k false) c) =
        some (e.scalarPoint k) ∧
      decodeResult e
          (SigningKey.computePublicKey e (e.getPublicKey k true) c) =
        some (e.scalarPoint k) ∧
      decodeResult e
          (SigningKey.computePublicKey e
            ((e.getPublicKey k false).drop 1) c) =
        some (e.scalarPoint k) := by
  intro c
  obtain ⟨rest, hu, hrl⟩ := hus k hk
  have hdec : ∀ c', e.fromHex (e.toRawBytes (e.scalarPoint k) c') =
      some (e.scalarPoint k) := fun c' => hdd k c' hk
  have h65 : (e.toRawBytes (e.scalarPoint k) false).length = 65 := by
    rw [hu]; simp [hrl]
  have h33 : (e.toRawBytes (e.scalarPoint k) true).length = 33 := hcl k hk
  refine ⟨?_, ?_, ?_, ?_⟩
  · simp [SigningKey.computePublicKey, getBytes, hk, decodeResult,
      hexlify, CurveEngine.getPublicKey, hdec]
  · simp [SigningKey.computePublicKey, getBytes, decodeResult, hexlify,
      CurveEngine.getPublicKey, hdec, h65]
  · simp [SigningKey.computePublicKey, getBytes, decodeResult, hexlify,
      CurveEngine.getPublicKey, hdec, h33]
  · have hrw : (e.getPublicKey k false).drop 1 = rest := by
      simp [CurveEngine.getPublicKey, hu]
    rw [hrw]
    simp [SigningKey.computePublicKey, getBytes, decodeResult, hexlify,
      hrl, ← hu, hdec]

/-- Witness for C5: on the test engine, all three derived encodings of the
public key of a concrete private key decode back to the same point. -/
theorem computePublicKey_normalizes_witness :
    decodeResult testEngine
        (SigningKey.computePublicKey testEngine (List.replicate 32 0) false) =
          some (testEngine.scalarPoint (List.replicate 32 0)) ∧
      decodeResult testEngine
          (SigningKey.computePublicKey testEngine
            (testEngine.getPublicKey (List.replicate 32 0) false) false) =
        some (testEngine.scalarPoint (List.replicate 32 0)) ∧
      decodeResult testEngine
          (SigningKey.computePublicKey testEngine
            (testEngine.getPublicKey (List.replicate 32 0) true) false) =
        some (testEngine.scalarPoint (List.replicate 32 0)) ∧
      decodeResult testEngine
          (SigningKey.computePublicKey testEngine
            ((testEngine.getPublicKey (List.replicate 32 0) false).drop 1)
            false) =
        some (testEngine.scalarPoint (List.replicate 32 0)) :=
  computePublicKey_normalizes testEngine testEngine_decodesDerived
    testEngine_uncompressedShape testEngine_compressedLen
    (List.replicate 32 0) (by decide) false

/-- **C10**: For every pair of valid keys denoting curve points,
`addPoints(p0, p1, compressed)` returns the same encoded point as
`addPoints(p1, p0, compressed)` (by commutativity of curve addition,
spec §8). -/
theorem addPoints_commutes (e : CurveEngine) (hac : e.AddComm)
    (p0 p1 : List Nat) (compressed : Bool)
    (b0 : List Nat) (h0 : SigningKey.computePublicKey e p0 false = .ok b0)
    (pt0 : CurvePoint) (hp0 : e.fromHex b0 = some pt0)
    (b1 : List Nat) (h1 : SigningKey.computePublicKey e p1 false = .ok b1)
    (pt1 : CurvePoint) (hp1 : e.fromHex b1 = some pt1) :
    SigningKey.addPoints e p0 p1 compressed =
      SigningKey.addPoints e p1 p0 compressed := by
  simp [SigningKey.addPoints, h0, h1, exceptOkBind, hp0, hp1, hexlify,
    hac pt0 pt1]

/-- Witness for C10: adding a concrete private-key-derived point and a
concrete uncompressed point commutes on the test engine. -/
theorem addPoints_commutes_witness :
    SigningKey.addPoints testEngine (List.replicate 32 0)
        (tEncode tPoint false) false =
      SigningKey.addPoints testEngine (tEncode tPoint false)
        (List.replicate 32 0) false :=
  addPoints_commutes testEngine testEngine_addComm (List.replicate 32 0)
    (tEncode tPoint false) false (tEncode tPoint false) rfl tPoint
    (by decide) (tEncode tPoint false) rfl tPoint (by decide)
